import Mathlib

/-!
Verification of the whatsapp_transcriber_golang repository against its
specification.  The Go source is shallowly embedded: pure parsing and
dispatch logic becomes Lean functions, the stateful exclusion store becomes
explicit state passing, and the effectful message pipeline is modelled as a
function from the outcomes of its effectful steps to a trace of the
externally visible actions (messages sent, temporary files created).
-/

/-- Strings of the embedded Go code are modelled as lists of characters
(Go `len` counts bytes; for the ASCII data handled here the two agree). -/
abbrev Str := List Char

/-- ASCII part of Go `unicode.IsSpace`, used by `strings.TrimSpace`. -/
def isSpc (c : Char) : Bool :=
  c = ' ' || c = '\t' || c = '\n' || c = '\r' || c = '\x0b' || c = '\x0c'

/-- Embedding of Go `strings.TrimSpace`: drop whitespace from both ends. -/
def trimSpace (s : Str) : Str :=
  ((s.dropWhile isSpc).reverse.dropWhile isSpc).reverse

/-! ## JSON values and the `encoding/json` decoding discipline

JSON numbers are modelled as integers (no response field relevant to the
verified properties carries a fractional value).  Duplicate object keys are
not modelled (Go keeps the last; the bodies considered have none). -/

/-- JSON document, as produced by `encoding/json` parsing. -/
inductive Json where
  | null : Json
  | bool (b : Bool) : Json
  | num (n : Int) : Json
  | str (s : String) : Json
  | arr (elems : List Json) : Json
  | obj (fields : List (String × Json)) : Json

/-- Look up a key of a JSON object. -/
def jGet : List (String × Json) → String → Option Json
  | [], _ => none
  | (k', v) :: rest, k => if k' = k then some v else jGet rest k

/-- Go unmarshalling of a JSON value into a `string` field: `null` leaves the
zero value, any non-string value is a type error. -/
def decStr : Json → Except Unit String
  | .str s => .ok s
  | .null => .ok ""
  | _ => .error ()

/-- Go unmarshalling into a numeric field (`int` or `float64`). -/
def decNum : Json → Except Unit Int
  | .num n => .ok n
  | .null => .ok 0
  | _ => .error ()

/-- Go unmarshalling into a `bool` field. -/
def decBool : Json → Except Unit Bool
  | .bool b => .ok b
  | .null => .ok false
  | _ => .error ()

/-- Decode one struct field: a missing key leaves the zero value `dflt`,
a present key must decode. -/
def decField (fs : List (String × Json)) (k : String) (dec : Json → Except Unit α)
    (dflt : α) : Except Unit α :=
  match jGet fs k with
  | none => .ok dflt
  | some v => dec v

/-- Go unmarshalling into a slice field, collapsing `nil` and the empty
slice (used where the Go code never distinguishes them). -/
def decListP (dec : Json → Except Unit α) : Json → Except Unit (List α)
  | .null => .ok []
  | .arr xs => xs.mapM dec
  | _ => .error ()

/-- Go unmarshalling into a slice field keeping the `nil` / empty-slice
distinction (`none` is the `nil` slice), used where the Go code tests
`!= nil`. -/
def decListO (dec : Json → Except Unit α) : Json → Except Unit (Option (List α))
  | .null => .ok none
  | .arr xs => do
      let ys ← xs.mapM dec
      .ok (some ys)
  | _ => .error ()

/-! ## HTTP responses

An adapter's behaviour after `client.Do` depends only on the status code and
the body; `bodyJson` is the result of `encoding/json` parsing of `body`
(`none` when the body is not valid JSON).  Concrete instances below always
instantiate the two components consistently. -/

/-- HTTP response as seen by the response-parsing half of an adapter. -/
structure HttpResponse where
  status : Nat
  body : String
  bodyJson : Option Json

/-! ## Groq adapter (internal/transcription/groq.go)

The response handling of `GroqTranscriber.TranscribeAudio`: a non-200 status
is an error, otherwise the body is decoded into a struct with one `text`
field and that field is returned with no further checks. -/

/-- Response struct of the Groq adapter: `struct { Text string }`. -/
structure GroqResult where
  text : String
deriving DecidableEq, Repr

/-- Unmarshal the Groq response body. -/
def decGroqResult : Json → Except Unit GroqResult
  | .null => .ok ⟨""⟩
  | .obj fs => do
      let t ← decField fs "text" decStr ""
      .ok ⟨t⟩
  | _ => .error ()

/-- Response handling of `GroqTranscriber.TranscribeAudio` (groq.go:80-92). -/
def groqParse (resp : HttpResponse) : Except String String :=
  if resp.status = 200 then
    match resp.bodyJson with
    | none => .error "failed to decode Groq API response"
    | some j =>
      match decGroqResult j with
      | .error _ => .error "failed to decode Groq API response"
      | .ok r => .ok r.text
  else .error "Groq API returned non-200 status"

/-! ## Cloudflare Whisper adapter (internal/transcription/cloudflare.go)

`transcribeWithWhisperAPI` reads the body once and then tries, in order:
the full schema (`result.text` plus word count, transcription info, segments
and VTT), the simple schema (`result.text` only), and finally the raw body
text; only an empty body yields the empty-transcription error. -/

/-- The `transcription_info` block of the full Whisper response schema. -/
structure WhisperTransInfo where
  language : String
  languageProb : Int
  duration : Int
  durationAfterVad : Int
deriving DecidableEq, Repr

/-- One word of a Whisper segment (json keys `word`, `start`, `end`). -/
structure WhisperSegWord where
  word : String
  start : Int
  stop : Int
deriving DecidableEq, Repr

/-- One segment of the full Whisper response schema (json keys `start`,
`end`, `text`, `temperature`, `avg_logprob`, `compression_ratio`,
`no_speech_prob`, `words`). -/
structure WhisperSegment where
  start : Int
  stop : Int
  text : String
  temperature : Int
  avgLogprob : Int
  compressionRat : Int
  noSpeechProb : Int
  words : List WhisperSegWord
deriving DecidableEq, Repr

/-- The `result` object of the full Whisper response schema. -/
structure WhisperFullResult where
  text : String
  wordCount : Int
  transInfo : WhisperTransInfo
  segments : List WhisperSegment
  vtt : String
deriving DecidableEq, Repr

/-- Full Whisper response schema: everything nested under `result`. -/
structure WhisperFullResponse where
  result : WhisperFullResult
deriving DecidableEq, Repr

/-- The `result` object of the minimal Whisper schema (`text` only). -/
structure WhisperSimpleResult where
  text : String
deriving DecidableEq, Repr

/-- Minimal Whisper response schema: `result.text` only. -/
structure WhisperSimpleResponse where
  result : WhisperSimpleResult
deriving DecidableEq, Repr

/-- Unmarshal one word of a Whisper segment. -/
def decWhisperSegWord : Json → Except Unit WhisperSegWord
  | .null => .ok ⟨"", 0, 0⟩
  | .obj fs => do
      let w ← decField fs "word" decStr ""
      let s ← decField fs "start" decNum 0
      let e ← decField fs "end" decNum 0
      .ok ⟨w, s, e⟩
  | _ => .error ()

/-- Unmarshal one Whisper segment. -/
def decWhisperSegment : Json → Except Unit WhisperSegment
  | .null => .ok ⟨0, 0, "", 0, 0, 0, 0, []⟩
  | .obj fs => do
      let s ← decField fs "start" decNum 0
      let e ← decField fs "end" decNum 0
      let t ← decField fs "text" decStr ""
      let tp ← decField fs "temperature" decNum 0
      let al ← decField fs "avg_logprob" decNum 0
      let cr ← decField fs "compression_ratio" decNum 0
      let np ← decField fs "no_speech_prob" decNum 0
      let ws ← decField fs "words" (decListP decWhisperSegWord) []
      .ok ⟨s, e, t, tp, al, cr, np, ws⟩
  | _ => .error ()

/-- Unmarshal the `transcription_info` block. -/
def decWhisperTransInfo : Json → Except Unit WhisperTransInfo
  | .null => .ok ⟨"", 0, 0, 0⟩
  | .obj fs => do
      let l ← decField fs "language" decStr ""
      let p ← decField fs "language_probability" decNum 0
      let d ← decField fs "duration" decNum 0
      let dv ← decField fs "duration_after_vad" decNum 0
      .ok ⟨l, p, d, dv⟩
  | _ => .error ()

/-- Unmarshal the `result` object of the full Whisper schema. -/
def decWhisperFullResult : Json → Except Unit WhisperFullResult
  | .null => .ok ⟨"", 0, ⟨"", 0, 0, 0⟩, [], ""⟩
  | .obj fs => do
      let t ← decField fs "text" decStr ""
      let wc ← decField fs "word_count" decNum 0
      let ti ← decField fs "transcription_info" decWhisperTransInfo ⟨"", 0, 0, 0⟩
      let sg ← decField fs "segments" (decListP decWhisperSegment) []
      let v ← decField fs "vtt" decStr ""
      .ok ⟨t, wc, ti, sg, v⟩
  | _ => .error ()

/-- Unmarshal the full Whisper response (cloudflare.go:117-145). -/
def decWhisperFullResponse : Json → Except Unit WhisperFullResponse
  | .null => .ok ⟨⟨"", 0, ⟨"", 0, 0, 0⟩, [], ""⟩⟩
  | .obj fs => do
      let r ← decField fs "result" decWhisperFullResult ⟨"", 0, ⟨"", 0, 0, 0⟩, [], ""⟩
      .ok ⟨r⟩
  | _ => .error ()

/-- Unmarshal the minimal Whisper response (cloudflare.go:179-184). -/
def decWhisperSimpleResponse : Json → Except Unit WhisperSimpleResponse
  | .null => .ok ⟨⟨""⟩⟩
  | .obj fs => do
      let r ← decField fs "result" (fun j =>
        match j with
        | .null => .ok (⟨""⟩ : WhisperSimpleResult)
        | .obj gs => do
            let t ← decField gs "text" decStr ""
            .ok ⟨t⟩
        | _ => .error ()) ⟨""⟩
      .ok ⟨r⟩
  | _ => .error ()

/-- First parsing tier of `transcribeWithWhisperAPI`: the full schema,
accepted only when its `result.text` is non-empty (cloudflare.go:145). -/
def whisperTier1 (resp : HttpResponse) : Option String :=
  match resp.bodyJson with
  | none => none
  | some j =>
    match decWhisperFullResponse j with
    | .error _ => none
    | .ok r => if r.result.text = "" then none else some r.result.text

/-- Second parsing tier: the minimal schema, accepted only when its
`result.text` is non-empty (cloudflare.go:184). -/
def whisperTier2 (resp : HttpResponse) : Option String :=
  match resp.bodyJson with
  | none => none
  | some j =>
    match decWhisperSimpleResponse j with
    | .error _ => none
    | .ok r => if r.result.text = "" then none else some r.result.text

/-- Response handling of `transcribeWithWhisperAPI`
(cloudflare.go:108-195): status check, then the three-tier cascade
(full schema, minimal schema, raw body), with the empty-transcription
error only for an empty body. -/
def whisperParse (resp : HttpResponse) : Except String String :=
  if resp.status = 200 then
    match whisperTier1 resp with
    | some t => .ok t
    | none =>
      match whisperTier2 resp with
      | some t => .ok t
      | none =>
        if resp.body = "" then .error "empty transcription received from Whisper API"
        else .ok resp.body
  else .error "cloudflare ai whisper api returned non-200 status"

/-! ## Cloudflare Deepgram adapter (internal/transcription/cloudflare.go)

`transcribeWithDeepgramAPI` walks `result.results.channels[0].alternatives[0]
.transcript`, falls back to the summary fields, and (in its second tier and
final tier) to the raw body. -/

/-- One word of a Deepgram alternative (keys `word`, `start`, `end`,
`confidence`). -/
structure DGWord where
  word : String
  start : Int
  stop : Int
  confidence : Int
deriving DecidableEq, Repr

/-- One alternative of a Deepgram channel. -/
structure DGAlt where
  transcript : String
  words : List DGWord
  confidence : Int
deriving DecidableEq, Repr

/-- One channel of the Deepgram results. -/
structure DGChannel where
  alternatives : List DGAlt
deriving DecidableEq, Repr

/-- The `summary` block of the Deepgram results. -/
structure DGSummary where
  result : String
  short : String
deriving DecidableEq, Repr

/-- One segment of the `sentiments` block. -/
structure DGSentSeg where
  text : String
  startWord : Int
  endWord : Int
  sentiment : String
  sentimentScore : Int
deriving DecidableEq, Repr

/-- The `average` part of the `sentiments` block. -/
structure DGSentAvg where
  sentiment : String
  sentimentScore : Int
deriving DecidableEq, Repr

/-- The `sentiments` block of the Deepgram results. -/
structure DGSentiments where
  segments : List DGSentSeg
  average : DGSentAvg
deriving DecidableEq, Repr

/-- The `results` object of the full Cloudflare-Deepgram schema.  `channels`
keeps the `nil` / empty distinction because the Go code guards its first
tier with `Channels != nil` (cloudflare.go:330). -/
structure DGResults where
  channels : Option (List DGChannel)
  summary : DGSummary
  sentiments : DGSentiments
deriving DecidableEq, Repr

/-- The `result` wrapper of the full Cloudflare-Deepgram schema. -/
structure DGResultWrap where
  results : DGResults
deriving DecidableEq, Repr

/-- Full Cloudflare-Deepgram response (cloudflare.go:293-327). -/
structure CFDGFullResponse where
  result : DGResultWrap
deriving DecidableEq, Repr

/-- One alternative of the simple Cloudflare-Deepgram schema. -/
structure DGSimpleAlt where
  transcript : String
deriving DecidableEq, Repr

/-- One channel of the simple Cloudflare-Deepgram schema. -/
structure DGSimpleChannel where
  alternatives : List DGSimpleAlt
deriving DecidableEq, Repr

/-- The `results` object of the simple Cloudflare-Deepgram schema. -/
structure DGSimpleResults where
  channels : List DGSimpleChannel
  summary : DGSummary
deriving DecidableEq, Repr

/-- The `result` wrapper of the simple Cloudflare-Deepgram schema. -/
structure DGSimpleWrap where
  results : DGSimpleResults
deriving DecidableEq, Repr

/-- Simple Cloudflare-Deepgram response (cloudflare.go:366-380). -/
structure CFDGSimpleResponse where
  result : DGSimpleWrap
deriving DecidableEq, Repr

/-- Unmarshal one Deepgram word. -/
def decDGWord : Json → Except Unit DGWord
  | .null => .ok ⟨"", 0, 0, 0⟩
  | .obj fs => do
      let w ← decField fs "word" decStr ""
      let s ← decField fs "start" decNum 0
      let e ← decField fs "end" decNum 0
      let c ← decField fs "confidence" decNum 0
      .ok ⟨w, s, e, c⟩
  | _ => .error ()

/-- Unmarshal one Deepgram alternative. -/
def decDGAlt : Json → Except Unit DGAlt
  | .null => .ok ⟨"", [], 0⟩
  | .obj fs => do
      let t ← decField fs "transcript" decStr ""
      let ws ← decField fs "words" (decListP decDGWord) []
      let c ← decField fs "confidence" decNum 0
      .ok ⟨t, ws, c⟩
  | _ => .error ()

/-- Unmarshal one Deepgram channel. -/
def decDGChannel : Json → Except Unit DGChannel
  | .null => .ok ⟨[]⟩
  | .obj fs => do
      let alts ← decField fs "alternatives" (decListP decDGAlt) []
      .ok ⟨alts⟩
  | _ => .error ()

/-- Unmarshal the Deepgram summary block. -/
def decDGSummary : Json → Except Unit DGSummary
  | .null => .ok ⟨"", ""⟩
  | .obj fs => do
      let r ← decField fs "result" decStr ""
      let s ← decField fs "short" decStr ""
      .ok ⟨r, s⟩
  | _ => .error ()

/-- Unmarshal one sentiment segment. -/
def decDGSentSeg : Json → Except Unit DGSentSeg
  | .null => .ok ⟨"", 0, 0, "", 0⟩
  | .obj fs => do
      let t ← decField fs "text" decStr ""
      let sw ← decField fs "start_word" decNum 0
      let ew ← decField fs "end_word" decNum 0
      let sn ← decField fs "sentiment" decStr ""
      let sc ← decField fs "sentiment_score" decNum 0
      .ok ⟨t, sw, ew, sn, sc⟩
  | _ => .error ()

/-- Unmarshal the sentiment average. -/
def decDGSentAvg : Json → Except Unit DGSentAvg
  | .null => .ok ⟨"", 0⟩
  | .obj fs => do
      let sn ← decField fs "sentiment" decStr ""
      let sc ← decField fs "sentiment_score" decNum 0
      .ok ⟨sn, sc⟩
  | _ => .error ()

/-- Unmarshal the sentiments block. -/
def decDGSentiments : Json → Except Unit DGSentiments
  | .null => .ok ⟨[], ⟨"", 0⟩⟩
  | .obj fs => do
      let sg ← decField fs "segments" (decListP decDGSentSeg) []
      let av ← decField fs "average" decDGSentAvg ⟨"", 0⟩
      .ok ⟨sg, av⟩
  | _ => .error ()

/-- Unmarshal the full Deepgram `results` object. -/
def decDGResults : Json → Except Unit DGResults
  | .null => .ok ⟨none, ⟨"", ""⟩, ⟨[], ⟨"", 0⟩⟩⟩
  | .obj fs => do
      let chs ← decField fs "channels" (decListO decDGChannel) none
      let sm ← decField fs "summary" decDGSummary ⟨"", ""⟩
      let st ← decField fs "sentiments" decDGSentiments ⟨[], ⟨"", 0⟩⟩
      .ok ⟨chs, sm, st⟩
  | _ => .error ()

/-- Unmarshal the full Cloudflare-Deepgram response. -/
def decCFDGFullResponse : Json → Except Unit CFDGFullResponse
  | .null => .ok ⟨⟨⟨none, ⟨"", ""⟩, ⟨[], ⟨"", 0⟩⟩⟩⟩⟩
  | .obj fs => do
      let w ← decField fs "result" (fun j =>
        match j with
        | .null => .ok (⟨⟨none, ⟨"", ""⟩, ⟨[], ⟨"", 0⟩⟩⟩⟩ : DGResultWrap)
        | .obj gs => do
            let rs ← decField gs "results" decDGResults ⟨none, ⟨"", ""⟩, ⟨[], ⟨"", 0⟩⟩⟩
            .ok ⟨rs⟩
        | _ => .error ()) ⟨⟨none, ⟨"", ""⟩, ⟨[], ⟨"", 0⟩⟩⟩⟩
      .ok ⟨w⟩
  | _ => .error ()

/-- Unmarshal one simple Deepgram alternative. -/
def decDGSimpleAlt : Json → Except Unit DGSimpleAlt
  | .null => .ok ⟨""⟩
  | .obj fs => do
      let t ← decField fs "transcript" decStr ""
      .ok ⟨t⟩
  | _ => .error ()

/-- Unmarshal one simple Deepgram channel. -/
def decDGSimpleChannel : Json → Except Unit DGSimpleChannel
  | .null => .ok ⟨[]⟩
  | .obj fs => do
      let alts ← decField fs "alternatives" (decListP decDGSimpleAlt) []
      .ok ⟨alts⟩
  | _ => .error ()

/-- Unmarshal the simple Deepgram `results` object. -/
def decDGSimpleResults : Json → Except Unit DGSimpleResults
  | .null => .ok ⟨[], ⟨"", ""⟩⟩
  | .obj fs => do
      let chs ← decField fs "channels" (decListP decDGSimpleChannel) []
      let sm ← decField fs "summary" decDGSummary ⟨"", ""⟩
      .ok ⟨chs, sm⟩
  | _ => .error ()

/-- Unmarshal the simple Cloudflare-Deepgram response. -/
def decCFDGSimpleResponse : Json → Except Unit CFDGSimpleResponse
  | .null => .ok ⟨⟨⟨[], ⟨"", ""⟩⟩⟩⟩
  | .obj fs => do
      let w ← decField fs "result" (fun j =>
        match j with
        | .null => .ok (⟨⟨[], ⟨"", ""⟩⟩⟩ : DGSimpleWrap)
        | .obj gs => do
            let rs ← decField gs "results" decDGSimpleResults ⟨[], ⟨"", ""⟩⟩
            .ok ⟨rs⟩
        | _ => .error ()) ⟨⟨[], ⟨"", ""⟩⟩⟩
      .ok ⟨w⟩
  | _ => .error ()

/-- Transcript of the first alternative of the first channel, or the empty
string — mirrors the guarded index (cloudflare.go:333-336). -/
def firstTranscriptFull : List DGChannel → String
  | c :: _ =>
    match c.alternatives with
    | a :: _ => a.transcript
    | [] => ""
  | [] => ""

/-- Simple-schema version of `firstTranscriptFull` (cloudflare.go:385-388). -/
def firstTranscriptSimple : List DGSimpleChannel → String
  | c :: _ =>
    match c.alternatives with
    | a :: _ => a.transcript
    | [] => ""
  | [] => ""

/-- The summary fallback applied when the channel transcript is empty
(cloudflare.go:338-345). -/
def dgFallbackPick (t : String) (sm : DGSummary) : String :=
  if t = "" then
    if sm.result ≠ "" then sm.result
    else if sm.short ≠ "" then sm.short
    else ""
  else t

/-- First tier of `transcribeWithDeepgramAPI` (cloudflare.go:330-363):
engaged when the full schema decodes with a non-nil `channels`;
once engaged it is terminal — an empty transcript after the summary
fallback is reported as an error, not passed to the next tier. -/
def cfdgTier1 (resp : HttpResponse) : Option (Except String String) :=
  match resp.bodyJson with
  | none => none
  | some j =>
    match decCFDGFullResponse j with
    | .error _ => none
    | .ok r =>
      match r.result.results.channels with
      | none => none
      | some chs =>
        let t := dgFallbackPick (firstTranscriptFull chs) r.result.results.summary
        if t = "" then some (.error "empty transcript received from Deepgram API")
        else some (.ok t)

/-- Second tier of `transcribeWithDeepgramAPI` (cloudflare.go:382-408):
the simple schema, accepted only when it yields a non-empty transcript. -/
def cfdgTier2 (resp : HttpResponse) : Option String :=
  match resp.bodyJson with
  | none => none
  | some j =>
    match decCFDGSimpleResponse j with
    | .error _ => none
    | .ok r =>
      let t := dgFallbackPick (firstTranscriptSimple r.result.results.channels)
        r.result.results.summary
      if t = "" then none else some t

/-- Response handling of `transcribeWithDeepgramAPI`
(cloudflare.go:282-416). -/
def cfDeepgramParse (resp : HttpResponse) : Except String String :=
  if resp.status = 200 then
    match cfdgTier1 resp with
    | some r => r
    | none =>
      match cfdgTier2 resp with
      | some t => .ok t
      | none =>
        if resp.body = "" then .error "failed to parse Deepgram response"
        else .ok resp.body
  else .error "cloudflare ai deepgram api returned non-200 status"

/-! ## Standalone Deepgram adapter (internal/transcription/deepgram.go) -/

/-- The `metadata` block of the standalone Deepgram response. -/
structure SDMeta where
  requestId : String
deriving DecidableEq, Repr

/-- One alternative of the standalone Deepgram response. -/
structure SDAlt where
  transcript : String
deriving DecidableEq, Repr

/-- One channel of the standalone Deepgram response. -/
structure SDChannel where
  alternatives : List SDAlt
deriving DecidableEq, Repr

/-- The `results` object of the standalone Deepgram response. -/
structure SDResults where
  channels : List SDChannel
deriving DecidableEq, Repr

/-- Standalone Deepgram response (deepgram.go:74-85). -/
structure SDResponse where
  metadata : SDMeta
  results : SDResults
deriving DecidableEq, Repr

/-- Unmarshal one standalone-Deepgram alternative. -/
def decSDAlt : Json → Except Unit SDAlt
  | .null => .ok ⟨""⟩
  | .obj fs => do
      let t ← decField fs "transcript" decStr ""
      .ok ⟨t⟩
  | _ => .error ()

/-- Unmarshal one standalone-Deepgram channel. -/
def decSDChannel : Json → Except Unit SDChannel
  | .null => .ok ⟨[]⟩
  | .obj fs => do
      let alts ← decField fs "alternatives" (decListP decSDAlt) []
      .ok ⟨alts⟩
  | _ => .error ()

/-- Unmarshal the standalone-Deepgram `results` object. -/
def decSDResults : Json → Except Unit SDResults
  | .null => .ok ⟨[]⟩
  | .obj fs => do
      let chs ← decField fs "channels" (decListP decSDChannel) []
      .ok ⟨chs⟩
  | _ => .error ()

/-- Unmarshal the `metadata` block. -/
def decSDMeta : Json → Except Unit SDMeta
  | .null => .ok ⟨""⟩
  | .obj fs => do
      let r ← decField fs "request_id" decStr ""
      .ok ⟨r⟩
  | _ => .error ()

/-- Unmarshal the standalone Deepgram response. -/
def decSDResponse : Json → Except Unit SDResponse
  | .null => .ok ⟨⟨""⟩, ⟨[]⟩⟩
  | .obj fs => do
      let m ← decField fs "metadata" decSDMeta ⟨""⟩
      let rs ← decField fs "results" decSDResults ⟨[]⟩
      .ok ⟨m, rs⟩
  | _ => .error ()

/-- Response handling of `DeepgramAITranscriber.TranscribeAudio`
(deepgram.go:70-117): status check, strict unmarshal, hard errors on a
missing first channel or first alternative, and no fallback of any kind. -/
def sdParse (resp : HttpResponse) : Except String String :=
  if resp.status = 200 then
    match resp.bodyJson with
    | none => .error "failed to parse response"
    | some j =>
      match decSDResponse j with
      | .error _ => .error "failed to parse response"
      | .ok r =>
        match r.results.channels with
        | [] => .error "no channels found in response"
        | c :: _ =>
          match c.alternatives with
          | [] => .error "no alternatives found in first channel"
          | a :: _ => .ok a.transcript
  else .error "deepgram api returned non-200 status"

/-! ## Transcription job pipeline (internal/transcription/transcription.go)

`Job.HandleAudioMessage` is effectful; it is embedded as a function from the
outcomes of its effectful steps (media dispatch, download, temp-directory
creation, temp-file write, backend call) to a trace of the externally
visible results: the outbound messages sent and the fate of the temporary
file.  The commented-out `replyWithError` calls (transcription.go:121,129,
137,161) send nothing. -/

/-- Externally visible outcome of one `Job.HandleAudioMessage` run. -/
structure JobTrace where
  sent : List Str
  tempCreated : Bool
  tempRemains : Bool
deriving DecidableEq, Repr

/-- Reply formatting of `Job.replyWithText` (transcription.go:181). -/
def fmtAutoReply (t : Str) : Str :=
  "*Transcrição automática:* _".data ++ t ++ "_".data

/-- Embedding of `Job.replyWithText` (transcription.go:176-189): trim, then
send only when the trimmed text is longer than 5. -/
def replyWithText (text : Str) : List Str :=
  if 5 < (trimSpace text).length then [fmtAutoReply (trimSpace text)] else []

/-- Embedding of `Job.HandleAudioMessage` (transcription.go:75-174).
`hasDownloadable`: the message carried an audio/document/video/image part;
`downloadOk`, `mkdirOk`, `writeOk`: outcomes of `Client.Download`,
`os.MkdirAll` and `os.WriteFile`; `transcribe`: outcome of the backend call.
The deferred `os.Remove` (transcription.go:140-146) clears the temporary
file on every exit path after it was created. -/
def handleAudioMessage (hasDownloadable downloadOk mkdirOk writeOk : Bool)
    (transcribe : Except String Str) : JobTrace :=
  if hasDownloadable then
    if downloadOk then
      if mkdirOk then
        if writeOk then
          match transcribe with
          | .error _ => ⟨[], true, false⟩
          | .ok text =>
            ⟨if 5 < text.length then replyWithText text else [], true, false⟩
        else ⟨[], false, false⟩
      else ⟨[], false, false⟩
    else ⟨[], false, false⟩
  else ⟨[], false, false⟩

/-! ## Exclusion store (internal/exclusion, `Manager`)

The `sync.Map` key set is modelled as a duplicate-free list (iteration order
of a Go map is unspecified; the model fixes most-recently-added-first) and
the backing file as the character sequence it currently holds.  File-system
failures are not modelled: every save succeeds, matching the store's
behaviour when its directory is writable. -/

/-- Boolean membership in the modelled key set. -/
def memb (l : List Str) (x : Str) : Bool :=
  l.any (fun y => y = x)

/-- Serialization of `Manager.saveExcludedNumbers` (part_002:60-79): every
entry followed by a newline, full rewrite. -/
def serializeEntries (es : List Str) : Str :=
  es.foldr (fun id acc => id ++ '\n' :: acc) []

/-- In-memory set plus backing-file content of one exclusion `Manager`. -/
structure Manager where
  entries : List Str
  fileContent : Str
deriving DecidableEq, Repr

/-- Embedding of `Manager.IsExcluded` (part_002:82-85). -/
def Manager.isExcluded (m : Manager) (jid : Str) : Bool :=
  memb m.entries jid

/-- Embedding of `Manager.Add` (part_002:88-95): `LoadOrStore` inserts only
an absent key; only then is the file rewritten.  The returned flag records
whether `saveExcludedNumbers` ran. -/
def Manager.addOp (m : Manager) (jid : Str) : Manager × Bool :=
  if memb m.entries jid then (m, false)
  else
    let es := jid :: m.entries
    (⟨es, serializeEntries es⟩, true)

/-- Embedding of `Manager.Remove` (part_002:98-105): `LoadAndDelete`
removes only a present key; only then is the file rewritten. -/
def Manager.removeOp (m : Manager) (jid : Str) : Manager × Bool :=
  if memb m.entries jid then
    let es := m.entries.filter (fun y => y ≠ jid)
    (⟨es, serializeEntries es⟩, true)
  else (m, false)

/-- Split a character sequence at every newline; the suffix after the last
newline is always a (possibly empty) final segment. -/
def splitNL : Str → List Str
  | [] => [[]]
  | c :: rest =>
    if c = '\n' then [] :: splitNL rest
    else
      match splitNL rest with
      | s :: ss => (c :: s) :: ss
      | [] => [[c]]

/-- The carriage-return stripping of `bufio.ScanLines`. -/
def dropCR (l : Str) : Str :=
  if l.getLast? = some '\r' then l.dropLast else l

/-- Token sequence produced by a `bufio.Scanner` with the default
`ScanLines` split: newline-separated lines, no empty token after a final
newline, one trailing carriage return stripped per line. -/
def scanLines (s : Str) : List Str :=
  if s = [] then []
  else
    (if (splitNL s).getLast? = some [] then (splitNL s).dropLast
     else splitNL s).map dropCR

/-- One step of `Manager.loadExcludedNumbers` (part_002:46-51): a non-empty
line is stored into the map (an already-present line changes nothing). -/
def loadStep (acc : List Str) (line : Str) : List Str :=
  if line = [] then acc
  else if memb acc line then acc else acc ++ [line]

/-- Entry set loaded by `Manager.loadExcludedNumbers` (part_002:45-51):
every non-empty line of the file, stored into the map (duplicates
collapse). -/
def loadEntries (file : Str) : List Str :=
  (scanLines file).foldl loadStep []

/-- One mutation of the exclusion store. -/
inductive ExOp where
  | add (jid : Str) : ExOp
  | remove (jid : Str) : ExOp
deriving DecidableEq, Repr

/-- Apply one mutation. -/
def applyOp (m : Manager) (op : ExOp) : Manager :=
  match op with
  | .add jid => (m.addOp jid).1
  | .remove jid => (m.removeOp jid).1

/-- Apply a sequence of mutations. -/
def applyOps (m : Manager) (ops : List ExOp) : Manager :=
  ops.foldl applyOp m

/-- An identifier the flat-file format can represent faithfully: non-empty
(the loader skips empty lines), no embedded newline (the separator), and no
trailing carriage return (stripped by `bufio.ScanLines`). -/
def wellFormedId (id : Str) : Prop :=
  id ≠ [] ∧ '\n' ∉ id ∧ id.getLast? ≠ some '\r'

instance (id : Str) : Decidable (wellFormedId id) := by
  unfold wellFormedId
  infer_instance

/-! ## Startup configuration and event dispatch (cmd/bot/main.go) -/

/-- Language selection of `main` (main.go:108-111): the
`TRANSCRIPTION_LANGUAGE` environment value, defaulting to `"pt"` when the
variable is unset or empty (Go `os.Getenv` returns `""` in both cases). -/
def resolveTranscriptionLanguage (env : String) : String :=
  if env = "" then "pt" else env

/-- Externally visible action of the event handler: an outbound message
sent by the administrative command flow (payload text elided — no verified
property inspects it), or a transcription job spawned with a language
hint. -/
inductive OutAction where
  | sent : OutAction
  | jobSpawned (lang : String) : OutAction
deriving DecidableEq, Repr

/-- Result of `handleAdminCommand` (main.go:311-441): whether the text was
recognised as a command, the store after its effect, and the actions sent. -/
structure CmdResult where
  handled : Bool
  store : Manager
  sent : List OutAction
deriving DecidableEq, Repr

/-- Embedding of `handleAdminCommand` (main.go:311-441).  Branches appear in
the source's `switch` order.  Every recognised command sends exactly one
reply; the `/backend` switch itself (success or credential error) also
sends exactly one reply and never touches the exclusion store, so its
two sub-branches collapse. -/
def handleAdminCommand (s : Manager) (text : Str) : CmdResult :=
  if text = "/exclude".data then ⟨true, s, [.sent]⟩
  else if text = "/include".data then ⟨true, s, [.sent]⟩
  else if "/exclude ".data.isPrefixOf text then
    let n := trimSpace (text.drop 9)
    if n = [] then ⟨true, s, [.sent]⟩
    else ⟨true, (s.addOp n).1, [.sent]⟩
  else if text = "/backend".data then ⟨true, s, [.sent]⟩
  else if "/backend ".data.isPrefixOf text then ⟨true, s, [.sent]⟩
  else if "/include ".data.isPrefixOf text then
    let n := trimSpace (text.drop 9)
    if n = [] then ⟨true, s, [.sent]⟩
    else if s.isExcluded n then ⟨true, (s.removeOp n).1, [.sent]⟩
    else ⟨true, s, [.sent]⟩
  else ⟨false, s, []⟩

/-- One inbound `events.Message` as the handler sees it: group flag, the
text extracted by `extractMessageText`, the chat (destination) user
identifier, the sender user identifier, and whether an audio part is
present. -/
structure MsgEvent where
  isGroup : Bool
  text : Str
  chat : Str
  sender : Str
  hasAudio : Bool
deriving DecidableEq, Repr

/-- Embedding of the `events.Message` arm of `eventHandler`
(main.go:450-483): group messages are dropped; non-empty text goes through
`handleAdminCommand` first and a handled command ends the event; then the
exclusion check on the destination `Info.Chat.User`; then an audio message
spawns one job carrying the process-wide language hint. -/
def eventHandlerMessage (s : Manager) (e : MsgEvent) (lang : String) :
    Manager × List OutAction :=
  if e.isGroup then (s, [])
  else
    let cmd := handleAdminCommand s e.text
    if e.text ≠ [] ∧ cmd.handled = true then (cmd.store, cmd.sent)
    else if s.isExcluded e.chat then (s, [])
    else if e.hasAudio then (s, [OutAction.jobSpawned lang])
    else (s, [])

/-! ## Concrete inputs used by the witnesses and counterexamples below -/

/-- A 200 response whose body is an object with a top-level `text` field. -/
def respTopText : HttpResponse :=
  ⟨200, "\x7b\"text\":\"hello\"\x7d", some (.obj [("text", .str "hello")])⟩

/-- A 200 response whose body nests `text` under `result`. -/
def respNestedText : HttpResponse :=
  ⟨200, "\x7b\"result\":\x7b\"text\":\"hello\"\x7d\x7d",
    some (.obj [("result", .obj [("text", .str "hello")])])⟩

/-- A 200 response whose body is the empty JSON object. -/
def respEmptyObj : HttpResponse :=
  ⟨200, "\x7b\x7d", some (.obj [])⟩

/-- A 200 response with an entirely empty body (not valid JSON). -/
def respEmptyBody : HttpResponse :=
  ⟨200, "", none⟩

/-- A 200 Deepgram response whose only alternative carries an empty
transcript. -/
def respSDEmptyTranscript : HttpResponse :=
  ⟨200,
    "\x7b\"results\":\x7b\"channels\":[\x7b\"alternatives\":[\x7b\"transcript\":\"\"\x7d]\x7d]\x7d\x7d",
    some (.obj [("results", .obj [("channels", .arr [.obj [("alternatives",
      .arr [.obj [("transcript", .str "")]])]])])])⟩

/-- Body JSON of a 200 Deepgram response with an empty `channels` list. -/
def jsonSDNoChannels : Json :=
  .obj [("results", .obj [("channels", .arr [])])]

/-- A 200 Deepgram response with an empty `channels` list. -/
def respSDNoChannels : HttpResponse :=
  ⟨200, "\x7b\"results\":\x7b\"channels\":[]\x7d\x7d", some jsonSDNoChannels⟩

/-- Decoded form of `jsonSDNoChannels`. -/
def sdNoChannels : SDResponse :=
  ⟨⟨""⟩, ⟨[]⟩⟩

/-- An exclusion store holding one identifier, with its file in sync. -/
def mgrOne : Manager :=
  ⟨["5511999999999".data], serializeEntries ["5511999999999".data]⟩

/-- The freshly constructed exclusion store over an empty file. -/
def mgrEmpty : Manager :=
  ⟨[], []⟩

/-- A mutation sequence containing effective and ineffective operations. -/
def opsRoundTrip : List ExOp :=
  [ExOp.add "5511999999999".data, ExOp.add "5511888888888".data,
   ExOp.add "5511999999999".data, ExOp.remove "5511888888888".data,
   ExOp.remove "5511000000000".data]

/-- A non-group audio event whose sender is excluded but whose chat is not. -/
def evSenderExcluded : MsgEvent :=
  ⟨false, [], "5511222222222".data, "5511999999999".data, true⟩

/-- A non-group command event arriving in an excluded chat. -/
def evCommandInExcludedChat : MsgEvent :=
  ⟨false, "/exclude".data, "5511999999999".data, "5511999999999".data, false⟩

/-! ## Supporting lemmas -/

/-- Boolean membership agrees with list membership. -/
theorem memb_iff (l : List Str) (x : Str) : memb l x = true ↔ x ∈ l := by
  simp [memb, List.any_eq_true]

/-- Dropping a prefix never lengthens a list. -/
theorem length_dropWhile_le (p : Char → Bool) (l : Str) :
    (l.dropWhile p).length ≤ l.length := by
  induction l with
  | nil => simp [List.dropWhile]
  | cons a l ih =>
    by_cases h : p a
    · simp only [List.dropWhile, h]
      exact Nat.le_trans ih (by simp)
    · simp [List.dropWhile, h]

/-- Trimming never lengthens a string. -/
theorem trimSpace_length_le (s : Str) : (trimSpace s).length ≤ s.length := by
  unfold trimSpace
  calc ((s.dropWhile isSpc).reverse.dropWhile isSpc).reverse.length
      = ((s.dropWhile isSpc).reverse.dropWhile isSpc).length := by
        simp
    _ ≤ (s.dropWhile isSpc).reverse.length := length_dropWhile_le _ _
    _ = (s.dropWhile isSpc).length := by simp
    _ ≤ s.length := length_dropWhile_le _ _

/-- The first Whisper tier only yields a non-empty transcript. -/
theorem whisperTier1_ne (resp : HttpResponse) (t : String)
    (h : whisperTier1 resp = some t) : t ≠ "" := by
  unfold whisperTier1 at h
  split at h
  next => simp at h
  next j =>
    split at h
    next => simp at h
    next r =>
      split at h
      next => simp at h
      next ht =>
        have he := Option.some.inj h
        rw [← he]
        exact ht

/-- The second Whisper tier only yields a non-empty transcript. -/
theorem whisperTier2_ne (resp : HttpResponse) (t : String)
    (h : whisperTier2 resp = some t) : t ≠ "" := by
  unfold whisperTier2 at h
  split at h
  next => simp at h
  next j =>
    split at h
    next => simp at h
    next r =>
      split at h
      next => simp at h
      next ht =>
        have he := Option.some.inj h
        rw [← he]
        exact ht

/-- A successful result of the first Cloudflare-Deepgram tier is
non-empty. -/
theorem cfdgTier1_ne (resp : HttpResponse) (t : String)
    (h : cfdgTier1 resp = some (.ok t)) : t ≠ "" := by
  unfold cfdgTier1 at h
  split at h
  next => simp at h
  next j =>
    split at h
    next => simp at h
    next r =>
      split at h
      next => simp at h
      next chs =>
        dsimp only at h
        split at h
        next => simp at h
        next ht =>
          have he := Except.ok.inj (Option.some.inj h)
          rw [← he]
          exact ht

/-- The second Cloudflare-Deepgram tier only yields a non-empty
transcript. -/
theorem cfdgTier2_ne (resp : HttpResponse) (t : String)
    (h : cfdgTier2 resp = some t) : t ≠ "" := by
  unfold cfdgTier2 at h
  split at h
  next => simp at h
  next j =>
    split at h
    next => simp at h
    next r =>
      dsimp only at h
      split at h
      next => simp at h
      next ht =>
        have he := Option.some.inj h
        rw [← he]
        exact ht

/-- Splitting after a newline-free prefix peels off exactly that prefix. -/
theorem splitNL_append (id rest : Str) (h : '\n' ∉ id) :
    splitNL (id ++ '\n' :: rest) = id :: splitNL rest := by
  induction id with
  | nil => simp [splitNL]
  | cons c cs ih =>
    have hc : ¬ c = '\n' := by
      intro e
      exact h (by rw [e]; exact List.mem_cons_self _ _)
    have hcs : '\n' ∉ cs := fun hm => h (List.mem_cons_of_mem _ hm)
    simp only [List.cons_append, splitNL, if_neg hc]
    have ih' : splitNL (cs.append ('\n' :: rest)) = cs :: splitNL rest := ih hcs
    rw [ih']

/-- Splitting a serialized entry list recovers the entries plus the final
empty segment after the last newline. -/
theorem splitNL_serialize (es : List Str) (h : ∀ id ∈ es, '\n' ∉ id) :
    splitNL (serializeEntries es) = es ++ [[]] := by
  induction es with
  | nil => simp [serializeEntries, splitNL]
  | cons e es ih =>
    have he : '\n' ∉ e := h e (List.mem_cons_self _ _)
    have hes : ∀ id ∈ es, '\n' ∉ id := fun id hid => h id (List.mem_cons_of_mem _ hid)
    show splitNL (e ++ '\n' :: serializeEntries es) = (e :: es) ++ [[]]
    rw [splitNL_append e _ he, ih hes]
    rfl

/-- Carriage-return stripping fixes every list of well-formed entries. -/
theorem map_dropCR_id (ls : List Str) (h : ∀ l ∈ ls, l.getLast? ≠ some '\r') :
    ls.map dropCR = ls := by
  induction ls with
  | nil => rfl
  | cons l ls ih =>
    have hl : dropCR l = l := by
      unfold dropCR
      rw [if_neg (h l (List.mem_cons_self _ _))]
    simp only [List.map_cons, hl,
      ih (fun x hx => h x (List.mem_cons_of_mem _ hx))]

/-- Scanning the serialization of well-formed entries recovers them
exactly. -/
theorem scanLines_serialize (es : List Str) (h : ∀ id ∈ es, wellFormedId id) :
    scanLines (serializeEntries es) = es := by
  cases es with
  | nil => rfl
  | cons e es =>
    have hnl : ∀ id ∈ e :: es, '\n' ∉ id := fun id hid => (h id hid).2.1
    have hser : serializeEntries (e :: es) ≠ [] := by
      show e ++ '\n' :: serializeEntries es ≠ []
      simp
    unfold scanLines
    rw [if_neg hser, splitNL_serialize _ hnl, List.getLast?_concat,
      if_pos rfl, List.dropLast_concat]
    exact map_dropCR_id _ (fun l hl => (h l hl).2.2)

/-- Folding the load step over fresh, duplicate-free, non-empty lines
appends them all. -/
theorem loadStep_foldl (ls : List Str) : ∀ acc : List Str, ls.Nodup →
    (∀ l ∈ ls, l ≠ [] ∧ l ∉ acc) → ls.foldl loadStep acc = acc ++ ls := by
  induction ls with
  | nil => intro acc _ _; simp
  | cons l ls ih =>
    intro acc hnd hfr
    have hl : loadStep acc l = acc ++ [l] := by
      unfold loadStep
      rw [if_neg (hfr l (List.mem_cons_self _ _)).1]
      have : memb acc l = false := by
        rw [← Bool.not_eq_true, memb_iff]
        exact (hfr l (List.mem_cons_self _ _)).2
      rw [this]
      simp
    have hnd' : ls.Nodup := (List.nodup_cons.mp hnd).2
    have hlnotin : l ∉ ls := (List.nodup_cons.mp hnd).1
    have hfr' : ∀ x ∈ ls, x ≠ [] ∧ x ∉ acc ++ [l] := by
      intro x hx
      refine ⟨(hfr x (List.mem_cons_of_mem _ hx)).1, ?_⟩
      intro hmem
      rcases List.mem_append.mp hmem with hina | hinl
      · exact (hfr x (List.mem_cons_of_mem _ hx)).2 hina
      · have : x = l := List.mem_singleton.mp hinl
        exact hlnotin (this ▸ hx)
    calc (l :: ls).foldl loadStep acc = ls.foldl loadStep (loadStep acc l) := rfl
      _ = ls.foldl loadStep (acc ++ [l]) := by rw [hl]
      _ = (acc ++ [l]) ++ ls := ih _ hnd' hfr'
      _ = acc ++ l :: ls := by simp

/-- Loading the serialization of a duplicate-free, well-formed entry list
recovers it exactly. -/
theorem loadEntries_serialize (es : List Str) (hn : es.Nodup)
    (h : ∀ id ∈ es, wellFormedId id) : loadEntries (serializeEntries es) = es := by
  unfold loadEntries
  rw [scanLines_serialize es h]
  have := loadStep_foldl es [] hn
    (fun l hl => ⟨(h l hl).1, List.not_mem_nil l⟩)
  simpa using this

/-- Every mutation keeps the backing file a serialization of the in-memory
set (part_002:91,101: `saveExcludedNumbers` runs after every effective
mutation). -/
theorem applyOp_synced (m : Manager) (op : ExOp)
    (h : m.fileContent = serializeEntries m.entries) :
    (applyOp m op).fileContent = serializeEntries (applyOp m op).entries := by
  cases op with
  | add jid =>
    unfold applyOp Manager.addOp
    by_cases hm : memb m.entries jid
    · simp [hm, h]
    · simp [hm]
  | remove jid =>
    unfold applyOp Manager.removeOp
    by_cases hm : memb m.entries jid
    · simp [hm]
    · simp [hm, h]

/-- Every mutation keeps the in-memory set duplicate-free. -/
theorem applyOp_nodup (m : Manager) (op : ExOp) (h : m.entries.Nodup) :
    (applyOp m op).entries.Nodup := by
  cases op with
  | add jid =>
    unfold applyOp Manager.addOp
    by_cases hm : memb m.entries jid
    · simpa [hm]
    · have : jid ∉ m.entries := by
        rw [← memb_iff]
        simp [hm]
      simp only [hm]
      exact List.nodup_cons.mpr ⟨this, h⟩
  | remove jid =>
    unfold applyOp Manager.removeOp
    by_cases hm : memb m.entries jid
    · simp only [hm, if_true]
      exact h.filter _
    · simpa [hm]

/-- Mutation sequences preserve sync and duplicate-freedom. -/
theorem applyOps_invariant (ops : List ExOp) : ∀ m : Manager,
    m.fileContent = serializeEntries m.entries → m.entries.Nodup →
    (applyOps m ops).fileContent = serializeEntries (applyOps m ops).entries ∧
      (applyOps m ops).entries.Nodup := by
  induction ops with
  | nil => intro m hs hn; exact ⟨hs, hn⟩
  | cons op ops ih =>
    intro m hs hn
    exact ih (applyOp m op) (applyOp_synced m op hs) (applyOp_nodup m op hn)

/-- Every admin-command branch replies with plain messages only: the
command flow never spawns a transcription job. -/
theorem handleAdminCommand_sent (s : Manager) (t : Str) :
    (handleAdminCommand s t).sent = [] ∨
      (handleAdminCommand s t).sent = [OutAction.sent] := by
  unfold handleAdminCommand
  split_ifs <;> simp [apply_ite CmdResult.sent]

/-- A job spawned by the event handler always carries the language hint the
handler was given. -/
theorem eventHandler_spawn_lang (s : Manager) (e : MsgEvent) (lang : String)
    (l : String)
    (h : OutAction.jobSpawned l ∈ (eventHandlerMessage s e lang).2) :
    l = lang := by
  by_cases hg : e.isGroup = true
  · simp [eventHandlerMessage, hg] at h
  · by_cases hcmd : e.text ≠ [] ∧ (handleAdminCommand s e.text).handled = true
    · simp only [eventHandlerMessage, hg] at h
      rw [if_neg (by simp)] at h
      simp only [if_pos hcmd] at h
      rcases handleAdminCommand_sent s e.text with hc | hc <;>
        rw [hc] at h <;> simp at h
    · by_cases hex : s.isExcluded e.chat = true
      · simp [eventHandlerMessage, hg, hcmd, hex] at h
      · by_cases ha : e.hasAudio = true
        · simp [eventHandlerMessage, hg, hcmd, hex, ha] at h
          exact h
        · simp [eventHandlerMessage, hg, hcmd, hex, ha] at h

/-- Claim C1, counterexample.  The claim asserts that the Whisper-style
adapter returns the transcript "hello" for the body with a top-level `text`
field and an empty-result error for the empty object.  In fact both bodies
fail the two `result.text` schema tiers and fall through to the raw-body
tier: the adapter returns the raw body verbatim as the transcript in both
cases (and the raw bodies differ from "hello" and from the empty string, so
neither the claimed transcript nor the claimed error is produced). -/
theorem whisperParse_scenarioC_refuted :
    whisperParse respTopText = .ok "\x7b\"text\":\"hello\"\x7d" ∧
      ("\x7b\"text\":\"hello\"\x7d" : String) ≠ "hello" ∧
      whisperParse respEmptyObj = .ok "\x7b\x7d" ∧
      ("\x7b\x7d" : String) ≠ "" :=
  ⟨rfl, by decide, rfl, by decide⟩

/-- Claim C1, amended.  On a 200 response the Whisper-style adapter returns
"hello" for the body nesting `text` under `result`; for the body with only a
top-level `text` field and for the empty object it returns the raw response
body verbatim as the transcript; the empty-result error occurs exactly when
the response body is empty. -/
theorem whisperParse_scenarioC_actual :
    whisperParse respNestedText = .ok "hello" ∧
      whisperParse respTopText = .ok "\x7b\"text\":\"hello\"\x7d" ∧
      whisperParse respEmptyObj = .ok "\x7b\x7d" ∧
      whisperParse respEmptyBody =
        .error "empty transcription received from Whisper API" :=
  ⟨rfl, rfl, rfl, rfl⟩

/-- Claim C2, counterexample.  The claim asserts that every adapter reports
an empty or missing transcript as an error.  The Groq adapter returns its
decoded `text` field with no emptiness check: the empty JSON object yields a
successful empty transcript; likewise the standalone Deepgram adapter
succeeds with the empty transcript carried by the first alternative. -/
theorem emptySuccess_refutes_nonempty :
    groqParse respEmptyObj = .ok "" ∧ sdParse respSDEmptyTranscript = .ok "" :=
  ⟨rfl, rfl⟩

/-- Claim C2, amended.  The non-empty-on-success guarantee holds for the two
Cloudflare adapters (every accepting path of the Whisper-style and the
Cloudflare-Deepgram-style parser checks non-emptiness), but not for the Groq
and standalone Deepgram adapters, which can succeed with an empty
transcript. -/
theorem cloudflare_success_nonempty :
    (∀ (resp : HttpResponse) (t : String), whisperParse resp = .ok t → t ≠ "") ∧
      (∀ (resp : HttpResponse) (t : String), cfDeepgramParse resp = .ok t → t ≠ "") := by
  constructor
  · intro resp t h
    unfold whisperParse at h
    split at h
    · split at h
      next t1 h1 =>
        have he := Except.ok.inj h
        rw [← he]
        exact whisperTier1_ne resp t1 h1
      next h1 =>
        split at h
        next t2 h2 =>
          have he := Except.ok.inj h
          rw [← he]
          exact whisperTier2_ne resp t2 h2
        next h2 =>
          split at h
          next => simp at h
          next hb =>
            have he := Except.ok.inj h
            rw [← he]
            exact hb
    · simp at h
  · intro resp t h
    unfold cfDeepgramParse at h
    split at h
    · split at h
      next r1 h1 =>
        rw [h] at h1
        exact cfdgTier1_ne resp t h1
      next h1 =>
        split at h
        next t2 h2 =>
          have he := Except.ok.inj h
          rw [← he]
          exact cfdgTier2_ne resp t2 h2
        next h2 =>
          split at h
          next => simp at h
          next hb =>
            have he := Except.ok.inj h
            rw [← he]
            exact hb
    · simp at h

/-- Witness for the amended claim C2 at a concrete response: the Whisper
adapter's successful parse of the nested-text body is non-empty. -/
theorem cloudflare_success_nonempty_witness :
    whisperParse respNestedText = .ok "hello" ∧ ("hello" : String) ≠ "" :=
  ⟨rfl, cloudflare_success_nonempty.1 respNestedText "hello" rfl⟩

/-- Claim C3, confirmed.  For a job that reaches the reply step (media
dispatched, downloaded, persisted, and transcribed successfully): a
transcript whose trimmed length is at most 5 is never replied to, and one
whose trimmed length is at least 6 always is.  The code's two guards —
`len(transcribedText) > 5` on the raw text (transcription.go:170) and
`len(trimmedText) > 5` after trimming (transcription.go:180) — compose to
exactly the trimmed-length threshold because trimming never lengthens. -/
theorem reply_threshold_trimmed (text : Str) :
    ((trimSpace text).length ≤ 5 →
      (handleAudioMessage true true true true (.ok text)).sent = []) ∧
    (6 ≤ (trimSpace text).length →
      (handleAudioMessage true true true true (.ok text)).sent ≠ []) := by
  have heval : (handleAudioMessage true true true true (.ok text)).sent =
      if 5 < text.length then replyWithText text else [] := rfl
  constructor
  · intro h
    rw [heval]
    have h2 : ¬ 5 < (trimSpace text).length := by omega
    by_cases h1 : 5 < text.length
    · rw [if_pos h1]
      unfold replyWithText
      rw [if_neg h2]
    · rw [if_neg h1]
  · intro h
    have htle := trimSpace_length_le text
    have h1 : 5 < text.length := by omega
    have h2 : 5 < (trimSpace text).length := by omega
    rw [heval, if_pos h1]
    unfold replyWithText
    rw [if_pos h2]
    simp

/-- Witness for claim C3 at concrete transcripts: a trimmed length of 2
sends nothing, a trimmed length of 6 sends a reply. -/
theorem reply_threshold_trimmed_witness :
    (handleAudioMessage true true true true (.ok "  ab  ".data)).sent = [] ∧
      (handleAudioMessage true true true true (.ok "abcdef".data)).sent ≠ [] :=
  ⟨(reply_threshold_trimmed "  ab  ".data).1 (by decide),
    (reply_threshold_trimmed "abcdef".data).2 (by decide)⟩

/-- Claim C4, confirmed.  A job whose download fails aborts immediately
(transcription.go:118-123, with the error reply commented out): no message
is sent, and no temporary file is created — the temp-file write only
happens after a successful download — so none can remain. -/
theorem download_failure_silent (mkdirOk writeOk : Bool)
    (transcribe : Except String Str) :
    handleAudioMessage true false mkdirOk writeOk transcribe =
      ⟨[], false, false⟩ := rfl

/-- Claim C8, confirmed.  On a 200 response the standalone Deepgram adapter
takes the transcript from `results.channels[0].alternatives[0].transcript`
and from nowhere else, and reports a hard parse error when the channel list
is empty or the first channel has no alternatives
(deepgram.go:101-117). -/
theorem sd_strict_parse (resp : HttpResponse) (j : Json) (r : SDResponse)
    (h200 : resp.status = 200) (hj : resp.bodyJson = some j)
    (hr : decSDResponse j = .ok r) :
    (r.results.channels = [] →
      sdParse resp = .error "no channels found in response") ∧
    (∀ c cs, r.results.channels = c :: cs → c.alternatives = [] →
      sdParse resp = .error "no alternatives found in first channel") ∧
    (∀ c cs a as, r.results.channels = c :: cs → c.alternatives = a :: as →
      sdParse resp = .ok a.transcript) := by
  refine ⟨?_, ?_, ?_⟩
  · intro hch
    simp [sdParse, h200, hj, hr, hch]
  · intro c cs hch ha
    simp [sdParse, h200, hj, hr, hch, ha]
  · intro c cs a as hch ha
    simp [sdParse, h200, hj, hr, hch, ha]

/-- Witness for claim C8 at a concrete response with no channels. -/
theorem sd_strict_parse_witness :
    sdParse respSDNoChannels = .error "no channels found in response" :=
  (sd_strict_parse respSDNoChannels jsonSDNoChannels sdNoChannels
    rfl rfl rfl).1 rfl

/-- Claim C5, confirmed.  Adding a present identifier and removing an absent
one are no-ops that leave both the in-memory set and the backing file
untouched, and the file rewrite (`saveExcludedNumbers`) runs exactly when
the in-memory set changes (part_002:87-105).  The returned flag records
whether the file was rewritten. -/
theorem exclusion_mutation_effects (m : Manager) (jid : Str) :
    (m.isExcluded jid = true → m.addOp jid = (m, false)) ∧
    (m.isExcluded jid = false → m.removeOp jid = (m, false)) ∧
    ((m.addOp jid).2 = true ↔ m.isExcluded jid = false) ∧
    ((m.removeOp jid).2 = true ↔ m.isExcluded jid = true) := by
  by_cases hm : memb m.entries jid = true
  · simp [Manager.isExcluded, Manager.addOp, Manager.removeOp, hm]
  · simp [Manager.isExcluded, Manager.addOp, Manager.removeOp, hm]

/-- Witness for claim C5: re-adding the stored identifier and removing a
missing one are both no-ops with no file rewrite. -/
theorem exclusion_mutation_effects_witness :
    Manager.addOp mgrOne "5511999999999".data = (mgrOne, false) ∧
      Manager.removeOp mgrOne "5511888888888".data = (mgrOne, false) :=
  ⟨(exclusion_mutation_effects mgrOne "5511999999999".data).1 (by decide),
    (exclusion_mutation_effects mgrOne "5511888888888".data).2.1 (by decide)⟩

/-- Claim C6, confirmed.  Immediately after `Add(i)` the identifier is
excluded; immediately after `Remove(i)` it is not (part_002:81-105). -/
theorem exclusion_membership_after_mutation (m : Manager) (jid : Str) :
    (m.addOp jid).1.isExcluded jid = true ∧
      (m.removeOp jid).1.isExcluded jid = false := by
  have hmem := memb_iff m.entries jid
  constructor
  · unfold Manager.addOp
    by_cases hm : jid ∈ m.entries
    · rw [if_pos (hmem.mpr hm)]
      exact hmem.mpr hm
    · rw [if_neg (fun hc => hm (hmem.mp hc))]
      simp [Manager.isExcluded, memb]
  · unfold Manager.removeOp
    by_cases hm : jid ∈ m.entries
    · rw [if_pos (hmem.mpr hm)]
      rw [Bool.eq_false_iff]
      intro hc
      have hmf := (memb_iff _ _).mp hc
      have hsp := List.mem_filter.mp hmf
      simp at hsp
    · rw [if_neg (fun hc => hm (hmem.mp hc))]
      rw [Bool.eq_false_iff]
      intro hc
      exact hm (hmem.mp hc)

/-- Claim C7, counterexample.  The round-trip is claimed for every entry set
reachable through Add/Remove, but `Add("")` is such an operation: it stores
the empty identifier and saves a file consisting of one blank line, which
the loader (which skips empty lines) reads back as the empty set — not the
set present before shutdown. -/
theorem exclusion_roundtrip_refuted :
    loadEntries ((applyOp mgrEmpty (ExOp.add [])).fileContent) ≠
      (applyOp mgrEmpty (ExOp.add [])).entries := by decide

/-- Claim C7, amended.  The persistence round-trip holds for every reachable
entry set whose identifiers the flat-file format can represent: non-empty,
containing no newline, and not ending in a carriage return.  Starting from
any in-sync, duplicate-free store state, after any sequence of Add/Remove
operations whose resulting entries are all representable, loading the
backing file reproduces exactly the in-memory entry set. -/
theorem exclusion_roundtrip_wellformed (m0 : Manager) (ops : List ExOp)
    (hs : m0.fileContent = serializeEntries m0.entries)
    (hn : m0.entries.Nodup)
    (hw : ∀ id ∈ (applyOps m0 ops).entries, wellFormedId id) :
    loadEntries ((applyOps m0 ops).fileContent) = (applyOps m0 ops).entries := by
  obtain ⟨hs', hn'⟩ := applyOps_invariant ops m0 hs hn
  rw [hs']
  exact loadEntries_serialize _ hn' hw

/-- Witness for the amended claim C7 at a concrete operation sequence with
effective and ineffective mutations. -/
theorem exclusion_roundtrip_wellformed_witness :
    loadEntries ((applyOps mgrEmpty opsRoundTrip).fileContent) =
      (applyOps mgrEmpty opsRoundTrip).entries :=
  exclusion_roundtrip_wellformed mgrEmpty opsRoundTrip rfl (by decide) (by decide)

/-- Claim C9, confirmed.  When `TRANSCRIPTION_LANGUAGE` is empty or unset
(Go `os.Getenv` returns "" in both cases) the process-wide language hint is
the fixed string "pt"; a non-empty value is used verbatim
(main.go:108-111).  Consequently the hint handed to every spawned
transcription job (main.go:478) is never the empty auto-detect hint, and is
"pt" whenever the variable was empty or unset. -/
theorem transcription_language_default (env : String) (s : Manager)
    (e : MsgEvent) :
    (env = "" → resolveTranscriptionLanguage env = "pt") ∧
    (env ≠ "" → resolveTranscriptionLanguage env = env) ∧
    resolveTranscriptionLanguage env ≠ "" ∧
    (∀ l, OutAction.jobSpawned l ∈
        (eventHandlerMessage s e (resolveTranscriptionLanguage env)).2 →
      l ≠ "" ∧ (env = "" → l = "pt")) := by
  have h1 : resolveTranscriptionLanguage env ≠ "" := by
    unfold resolveTranscriptionLanguage
    by_cases he : env = ""
    · rw [if_pos he]
      decide
    · rw [if_neg he]
      exact he
  refine ⟨?_, ?_, h1, ?_⟩
  · intro he
    unfold resolveTranscriptionLanguage
    rw [if_pos he]
  · intro he
    unfold resolveTranscriptionLanguage
    rw [if_neg he]
  · intro l hl
    have hle := eventHandler_spawn_lang s e _ l hl
    refine ⟨by rw [hle]; exact h1, ?_⟩
    intro he
    rw [hle]
    unfold resolveTranscriptionLanguage
    rw [if_pos he]

/-- Witness for claim C9: the empty environment value resolves to "pt" and
the explicit value "es" is used verbatim. -/
theorem transcription_language_default_witness :
    resolveTranscriptionLanguage "" = "pt" ∧
      resolveTranscriptionLanguage "es" = "es" :=
  ⟨(transcription_language_default "" mgrEmpty evSenderExcluded).1 rfl,
    (transcription_language_default "es" mgrEmpty evSenderExcluded).2.1
      (by decide)⟩

/-- Claim C10, confirmed.  For non-group messages the exclusion check is
applied to the destination `Info.Chat.User` (main.go:468-470): an audio
event whose chat is excluded never spawns a job (first conjunct);
administrative commands run before the exclusion check, so a recognised
command is handled — store effect and reply included — even in an excluded
chat (second conjunct); and the sender identifier is never consulted: an
audio message whose sender is excluded but whose chat is not still spawns
the job (third conjunct). -/
theorem exclusion_checks_chat_not_sender (s : Manager) (e : MsgEvent)
    (lang : String) :
    (e.isGroup = false → s.isExcluded e.chat = true →
      ∀ l, OutAction.jobSpawned l ∉ (eventHandlerMessage s e lang).2) ∧
    (e.isGroup = false → e.text ≠ [] →
      (handleAdminCommand s e.text).handled = true →
      eventHandlerMessage s e lang =
        ((handleAdminCommand s e.text).store,
          (handleAdminCommand s e.text).sent)) ∧
    (e.isGroup = false → e.text = [] → s.isExcluded e.sender = true →
      s.isExcluded e.chat = false → e.hasAudio = true →
      (eventHandlerMessage s e lang).2 = [OutAction.jobSpawned lang]) := by
  refine ⟨?_, ?_, ?_⟩
  · intro hg hex l hl
    by_cases hcmd : e.text ≠ [] ∧ (handleAdminCommand s e.text).handled = true
    · simp only [eventHandlerMessage, hg] at hl
      rw [if_neg (by simp)] at hl
      simp only [if_pos hcmd] at hl
      rcases handleAdminCommand_sent s e.text with hc | hc <;>
        rw [hc] at hl <;> simp at hl
    · simp [eventHandlerMessage, hg, hcmd, hex] at hl
  · intro hg ht hh
    simp [eventHandlerMessage, hg, ht, hh]
  · intro hg ht hsend hex ha
    simp [eventHandlerMessage, hg, ht, hex, ha]

/-- Witness for claim C10: with one excluded identifier, an audio event
whose sender (but not chat) is excluded spawns a job, and a command event in
the excluded chat is still handled. -/
theorem exclusion_checks_chat_not_sender_witness :
    (eventHandlerMessage mgrOne evSenderExcluded "pt").2 =
        [OutAction.jobSpawned "pt"] ∧
      eventHandlerMessage mgrOne evCommandInExcludedChat "pt" =
        ((handleAdminCommand mgrOne evCommandInExcludedChat.text).store,
          (handleAdminCommand mgrOne evCommandInExcludedChat.text).sent) :=
  ⟨(exclusion_checks_chat_not_sender mgrOne evSenderExcluded "pt").2.2
      rfl rfl (by decide) (by decide) rfl,
    (exclusion_checks_chat_not_sender mgrOne evCommandInExcludedChat "pt").2.1
      rfl (by decide) (by decide)⟩
